import Mathlib

/-!
Verification of `src/python_service/executor.py` (Memci python service).

The development shallowly embeds the two components of the service:

* the Value Codec (`protobuf_to_python`, `python_to_protobuf`), translated
  line by line from the Python source, and

* the Sandboxed Executor (`PythonExecutorServicer.Execute`), translated from
  the Python source; the evaluation step `exec(request.code, exec_globals)`
  is the host CPython interpreter (an external collaborator), embedded here
  as a small-step interpreter for the statement/expression fragment that the
  specification's scenarios exercise.

Machine-level conventions: Python `int` is unbounded and is embedded as
`Int`; the wire integer field is a protobuf signed 64-bit field, so an
assignment `result.int_value = value` raises `ValueError` when the value
does not fit in 64 signed bits, embedded as the error branch of the
encoder.  Python `float` payloads are only ever copied verbatim by the
codec (no arithmetic is performed on them by the code under
verification); they are embedded as `PyFloat` — an exact rational for the
finite range (every finite double is a rational) together with the two
infinities and NaN, whose `==` behaviour differs from every finite value.
Native dict keys are embedded as `PyKey`: the map field of the wire value
accepts only string keys and raises `TypeError` on any other key.
-/

/-- An IEEE double as the codec handles it: a finite value (every finite
double is a rational; the two signed zeros are collapsed, as Python `==`
equates them), one of the two infinities, or NaN.  The code under
verification only ever copies floats verbatim between the native value
and the wire double field. -/
inductive PyFloat where
  | finite (q : ℚ)
  | inf
  | negInf
  | nan
deriving DecidableEq

/-- A native dict key.  The wire map field accepts only string keys; any
other hashable key — an int as in `{1: 2}`, or anything else, carried
here by its textual representation — makes the map store raise
`TypeError`.  Non-string keys take part in no proven equality, so their
embedded equality is structural. -/
inductive PyKey where
  | str (s : String)
  | int (n : Int)
  | other (txt : String)
deriving DecidableEq

/-- Whether a dict key is a string, the only kind the wire map accepts. -/
def PyKey.isStr : PyKey → Bool
  | .str _ => true
  | _ => false

/-- Native dynamic (Python) values.  `none` is Python `None`; `other`
stands for any object outside the core representable set, carrying its
default textual representation `str(obj)` (all the code under verification
does with such an object is take that representation). -/
inductive PyVal where
  | none
  | str (s : String)
  | int (n : Int)
  | float (f : PyFloat)
  | bool (b : Bool)
  | list (xs : List PyVal)
  | dict (kvs : List (PyKey × PyVal))
  | other (txt : String)

/-- Modelled from the spec: the protobuf schema (`proto/executor.proto`,
generated module `executor_pb2`) is part of this repository but not under
`src/`; spec section 3 fixes the wire value as a tagged union of string,
64-bit signed integer, double, boolean, null, list and string-keyed map,
with exactly one variant tag set.  A freshly constructed protobuf `Value`
message has no variant of the oneof set; `unset` is that state, the state
`WhichOneof` reports as `None`. -/
inductive WireValue where
  | str (s : String)
  | int (n : Int)
  | float (f : PyFloat)
  | bool (b : Bool)
  | null
  | list (xs : List WireValue)
  | map (fields : List (String × WireValue))
  | unset

/-- Signed 64-bit range of the protobuf `int_value` field. -/
def int64Min : Int := -(2 ^ 63)

/-- Signed 64-bit range of the protobuf `int_value` field. -/
def int64Max : Int := 2 ^ 63 - 1

mutual
/-- `protobuf_to_python` from the source: branches on
`value.WhichOneof("value")` through `str_value`, `int_value`,
`float_value`, `bool_value`, `null_value`, `list_value`, `map_value`, and
returns `None` when no tag is recognised (the final `return None`). -/
def protobuf_to_python : WireValue → PyVal
  | .str s => .str s
  | .int n => .int n
  | .float f => .float f
  | .bool b => .bool b
  | .null => PyVal.none
  | .list ws => .list (decodeElems ws)
  | .map fs => .dict (decodeFields fs)
  | .unset => PyVal.none

/-- The list comprehension `[protobuf_to_python(v) for v in value.list_value.values]`. -/
def decodeElems : List WireValue → List PyVal
  | [] => []
  | w :: ws => protobuf_to_python w :: decodeElems ws

/-- The dict comprehension `{k: protobuf_to_python(v) for k, v in value.map_value.fields.items()}`. -/
def decodeFields : List (String × WireValue) → List (PyKey × PyVal)
  | [] => []
  | (k, w) :: fs => (PyKey.str k, protobuf_to_python w) :: decodeFields fs
end

/-- The `TypeError` the wire map field raises when a non-string key is
stored into it (the interpreter text, which names the offending key and
its type, is abstracted to this constant message). -/
def mapKeyTypeErrorMsg : String :=
  "map key has wrong type, but expected one of: bytes, str"

mutual
/-- `python_to_protobuf` from the source.  The branch order of the source
is `None`, `str`, `int`, `float`, `bool`, `list`, `dict`, fallback; since
Python `bool` is a subclass of `int`, `isinstance(value, bool)` is tested
only after `isinstance(value, int)` has already matched, so a boolean is
handled by the `int` branch (`result.int_value = True` stores `1`) and the
`bool` branch of the source is unreachable.  Assigning an integer outside
the signed 64-bit range to the `int_value` field raises
`ValueError("Value out of range")`, the error branch here.  An empty list
or dict performs no write to the accessed submessage, so the oneof stays
unset (protobuf message-field presence is established only by
modification).  In the dict branch each iteration evaluates
`python_to_protobuf(v)` first and then performs `struct[k] = ...`, which
raises `TypeError` when the key is not a string. -/
def python_to_protobuf : PyVal → Except String WireValue
  | PyVal.none => .ok .null
  | .str s => .ok (.str s)
  | .int n =>
      if int64Min ≤ n ∧ n ≤ int64Max then .ok (.int n) else .error "Value out of range"
  | .float f => .ok (.float f)
  | .bool b => .ok (.int (if b then 1 else 0))
  | .list xs =>
      match encodeElems xs with
      | .ok ws => .ok (if ws.isEmpty then .unset else .list ws)
      | .error e => .error e
  | .dict kvs =>
      match encodeFields kvs with
      | .ok fs => .ok (if fs.isEmpty then .unset else .map fs)
      | .error e => .error e
  | .other t => .ok (.str t)

/-- The loop `for item in value: list_value.values.append(python_to_protobuf(item))`;
an exception from any element aborts the whole encoding. -/
def encodeElems : List PyVal → Except String (List WireValue)
  | [] => .ok []
  | v :: vs =>
      match python_to_protobuf v with
      | .ok w =>
          match encodeElems vs with
          | .ok ws => .ok (w :: ws)
          | .error e => .error e
      | .error e => .error e

/-- The loop `for k, v in value.items(): struct[k] = python_to_protobuf(v)`:
the value is encoded first (the assignment right-hand side), then the map
store checks the key and raises `TypeError` unless it is a string. -/
def encodeFields : List (PyKey × PyVal) → Except String (List (String × WireValue))
  | [] => .ok []
  | (k, v) :: kvs =>
      match python_to_protobuf v with
      | .ok w =>
          match k with
          | .str ks =>
              match encodeFields kvs with
              | .ok fs => .ok ((ks, w) :: fs)
              | .error e => .error e
          | _ => .error mapKeyTypeErrorMsg
      | .error e => .error e
end

/-- The numeric value a Python object contributes to `==` comparisons, if
it is numeric: booleans compare as 1 and 0, integers and floats by value
(Python's numeric tower makes `True == 1` and `1 == 1.0` true). -/
def numRepr : PyVal → Option PyFloat
  | .int n => some (.finite (n : ℚ))
  | .bool b => some (.finite (if b then 1 else 0))
  | .float f => some f
  | _ => Option.none

/-- Python `==` on numbers: finite values by value, each infinity only to
itself, and NaN to nothing — not even to itself. -/
def floatEq : PyFloat → PyFloat → Bool
  | .finite q, .finite r => decide (q = r)
  | .inf, .inf => true
  | .negInf, .negInf => true
  | _, _ => false

/-- First binding of a key in an association list; Python dicts hold at
most one binding per key, so on faithful dict images this is the binding. -/
def dictFind : List (PyKey × PyVal) → PyKey → Option PyVal
  | [], _ => Option.none
  | (k, v) :: kvs, key => if k = key then some v else dictFind kvs key

/-- Every key of the first dict is present in the second. -/
def dictKeysSubset : List (PyKey × PyVal) → List (PyKey × PyVal) → Bool
  | [], _ => true
  | (k, _) :: kvs, ys => (dictFind ys k).isSome && dictKeysSubset kvs ys

mutual
/-- Python `==` on the embedded values: strings by content, `None` only to
`None`, numerics (int/bool/float) by numeric value with NaN equal to
nothing including itself, lists elementwise, dicts by key set and per-key
value equality (insertion order ignored); objects outside the core set by
identity, which textual identity stands in for here (no claim compares
two `other` objects). -/
def pyEq : PyVal → PyVal → Bool
  | .str s, .str t => s == t
  | PyVal.none, PyVal.none => true
  | .list xs, .list ys => pyEqElems xs ys
  | .dict xs, .dict ys => pyEqFieldsSub xs ys && dictKeysSubset ys xs
  | .other a, .other b => a == b
  | a, b =>
      match numRepr a, numRepr b with
      | some x, some y => floatEq x y
      | _, _ => false

/-- Elementwise `==` of two Python lists. -/
def pyEqElems : List PyVal → List PyVal → Bool
  | [], [] => true
  | x :: xs, y :: ys => pyEq x y && pyEqElems xs ys
  | _, _ => false

/-- Every binding of the first dict has a `==`-equal binding in the second. -/
def pyEqFieldsSub : List (PyKey × PyVal) → List (PyKey × PyVal) → Bool
  | [], _ => true
  | (k, v) :: kvs, ys =>
      (match dictFind ys k with
       | some w => pyEq v w
       | Option.none => false) && pyEqFieldsSub kvs ys
end

mutual
/-- Values for which the round trip through the codec is faithful: built
from the core representable constructors only, every integer within the
signed 64-bit wire range, no NaN float (Python `nan == nan` is false, so
NaN never equals its own round-trip image), every list and dict nonempty,
and dict keys strings (only then does the wire map accept them) and
duplicate-free (a native dict never holds a duplicate key; the list
embedding must say so explicitly). -/
def roundtripSafe : PyVal → Bool
  | PyVal.none => true
  | .str _ => true
  | .int n => decide (int64Min ≤ n ∧ n ≤ int64Max)
  | .float f => decide (f ≠ PyFloat.nan)
  | .bool _ => true
  | .list xs => !xs.isEmpty && elemsRoundtripSafe xs
  | .dict kvs =>
      !kvs.isEmpty && decide (kvs.map Prod.fst).Nodup && fieldsRoundtripSafe kvs
  | .other _ => false

/-- `roundtripSafe` on every element of a list. -/
def elemsRoundtripSafe : List PyVal → Bool
  | [] => true
  | v :: vs => roundtripSafe v && elemsRoundtripSafe vs

/-- String keyedness and `roundtripSafe` across an association list. -/
def fieldsRoundtripSafe : List (PyKey × PyVal) → Bool
  | [] => true
  | (k, v) :: kvs => PyKey.isStr k && roundtripSafe v && fieldsRoundtripSafe kvs
end

mutual
/-- Inputs on which the encoder cannot raise: every integer occurring in
the value fits the signed 64-bit wire range and every dict key (at any
depth) is a string — the two ways `python_to_protobuf` can fail.
Non-core scalars and all floats are safe: they take the string fallback
and the double field. -/
def wireSafe : PyVal → Bool
  | PyVal.none => true
  | .str _ => true
  | .int n => decide (int64Min ≤ n ∧ n ≤ int64Max)
  | .float _ => true
  | .bool _ => true
  | .list xs => elemsWireSafe xs
  | .dict kvs => fieldsWireSafe kvs
  | .other _ => true

/-- `wireSafe` on every element of a list. -/
def elemsWireSafe : List PyVal → Bool
  | [] => true
  | v :: vs => wireSafe v && elemsWireSafe vs

/-- String keyedness and `wireSafe` across an association list. -/
def fieldsWireSafe : List (PyKey × PyVal) → Bool
  | [] => true
  | (k, v) :: kvs => PyKey.isStr k && wireSafe v && fieldsWireSafe kvs
end

/-! ### The sandboxed executor -/

/-- Expressions of the fragment of Python that the specification's
scenarios submit to `exec`; evaluation of this fragment is the host
CPython interpreter, an external collaborator of the code under
verification. -/
inductive Expr where
  | lit (v : PyVal)
  | var (name : String)
  | add (a b : Expr)
  | div (a b : Expr)

/-- Statements of the submitted-code fragment.  `printCall e` is a call
`print(e)` to the allow-listed `print`, which the servicer redirects into
the call-local capture buffer; `importModule m` is a dynamic import
`import m`; `assertStmt e` is `assert e`; `nextEmptyGen` is the statement
`(x for x in []).__next__()` — the last two are the engine constructs
whose exceptions carry an empty message. -/
inductive Stmt where
  | assign (name : String) (e : Expr)
  | exprStmt (e : Expr)
  | printCall (e : Expr)
  | importModule (m : String)
  | assertStmt (e : Expr)
  | nextEmptyGen

/-- A submitted source text: either a parsed program, or text that fails
to parse, on which `exec` raises `SyntaxError` before running anything. -/
inductive Code where
  | prog (stmts : List Stmt)
  | unparsable

/-- The `exec_globals` dict: newer bindings are consed in front and
shadow older ones, exactly a dict overwrite as far as lookup goes. -/
abbrev Scope := List (String × PyVal)

/-- Dict lookup `exec_globals.get(key)` (no builtins fallback). -/
def Scope.lookup (g : Scope) (key : String) : Option PyVal :=
  (g.find? (fun p => p.1 == key)).map Prod.snd

/-- Dict store `exec_globals[key] = v`. -/
def Scope.setVar (g : Scope) (key : String) (v : PyVal) : Scope :=
  (key, v) :: g

/-- The keys of the `__builtins__` dict literal of `Execute` (the
capability allow-list); `eval`, `exec`, `open`, `__import__` and the rest
of the dangerous builtins are deliberately absent. -/
def allowedBuiltins : List String :=
  ["print", "len", "range", "str", "int", "float", "bool", "list", "dict",
   "tuple", "set", "sum", "min", "max", "abs", "all", "any", "enumerate",
   "zip", "sorted", "reversed", "map", "filter"]

/-- The function object stored under a builtin name (values matter to the
claims only through name lookup, never through being called, except for
`print`, whose redirected behaviour `execStmt` gives directly). -/
def builtinObject (name : String) : PyVal :=
  .other ("<built-in function " ++ name ++ ">")

/-- Lookup in the `__builtins__` dict. -/
def lookupBuiltin (name : String) : Option PyVal :=
  if name ∈ allowedBuiltins then some (builtinObject name) else Option.none

/-- CPython global-name resolution inside `exec`: the globals dict first,
then its `__builtins__` entry.  A context or registry binding therefore
shadows a same-named builtin. -/
def resolveName (g : Scope) (name : String) : Option PyVal :=
  match Scope.lookup g name with
  | some v => some v
  | Option.none => lookupBuiltin name

/-- `NameError` message for an unbound name. -/
def nameErrorMsg (name : String) : String :=
  "name \u0027" ++ name ++ "\u0027 is not defined"

/-- Python `+` on the fragment's values. -/
def pyAdd : PyVal → PyVal → Except String PyVal
  | .int m, .int n => .ok (.int (m + n))
  | .str s, .str t => .ok (.str (s ++ t))
  | _, _ => .error "unsupported operand type(s) for +"

/-- Python `/` on the fragment's values: true division of integers yields
a float (embedded as the exact rational; no claim depends on rounding),
and a zero divisor raises `ZeroDivisionError("division by zero")`. -/
def pyDiv : PyVal → PyVal → Except String PyVal
  | .int m, .int n =>
      if n = 0 then .error "division by zero"
      else .ok (.float (.finite ((m : ℚ) / (n : ℚ))))
  | _, _ => .error "unsupported operand type(s) for /"

/-- Expression evaluation under a scope. -/
def evalExpr (g : Scope) : Expr → Except String PyVal
  | .lit v => .ok v
  | .var name =>
      match resolveName g name with
      | some v => .ok v
      | Option.none => .error (nameErrorMsg name)
  | .add a b =>
      match evalExpr g a with
      | .ok x =>
          match evalExpr g b with
          | .ok y => pyAdd x y
          | .error e => .error e
      | .error e => .error e
  | .div a b =>
      match evalExpr g a with
      | .ok x =>
          match evalExpr g b with
          | .ok y => pyDiv x y
          | .error e => .error e
      | .error e => .error e

/-- Python `str()` as used by the redirected `print`; the exact rendering
of containers is not relied on by any claim. -/
def pyStr : PyVal → String
  | PyVal.none => "None"
  | .str s => s
  | .int n => toString n
  | .float f =>
      match f with
      | .finite q => toString q
      | .inf => "inf"
      | .negInf => "-inf"
      | .nan => "nan"
  | .bool b => if b then "True" else "False"
  | .list _ => "<list>"
  | .dict _ => "<dict>"
  | .other t => t

/-- Python truthiness, as `assert` tests it: `None`, numeric zero and
empty containers are falsy; NaN, the infinities and plain objects are
truthy. -/
def pyTruthy : PyVal → Bool
  | PyVal.none => false
  | .str s => !s.isEmpty
  | .int n => decide (n ≠ 0)
  | .float f =>
      match f with
      | .finite q => decide (q ≠ 0)
      | _ => true
  | .bool b => b
  | .list xs => !xs.isEmpty
  | .dict kvs => !kvs.isEmpty
  | .other _ => true

/-- One statement of the submitted code, acting on the scope and the
call-local output buffer.  `import m` under the restricted `__builtins__`
(which exclude `__import__`) raises `ImportError("__import__ not found")`.
A failed `assert` raises `AssertionError()` whose `str` is empty, and
`(x for x in []).__next__()` raises `StopIteration()`, also with an empty
`str` — the engine does raise exceptions carrying no message. -/
def execStmt (g : Scope) (out : String) : Stmt → Except String (Scope × String)
  | .assign name e =>
      match evalExpr g e with
      | .ok v => .ok (Scope.setVar g name v, out)
      | .error msg => .error msg
  | .exprStmt e =>
      match evalExpr g e with
      | .ok _ => .ok (g, out)
      | .error msg => .error msg
  | .printCall e =>
      match evalExpr g e with
      | .ok v => .ok (g, out ++ pyStr v ++ "\n")
      | .error msg => .error msg
  | .importModule _ => .error "__import__ not found"
  | .assertStmt e =>
      match evalExpr g e with
      | .ok v => if pyTruthy v then .ok (g, out) else .error ""
      | .error msg => .error msg
  | .nextEmptyGen => .error ""

/-- Statement sequencing; the first raised exception aborts the program. -/
def execStmts (g : Scope) (out : String) : List Stmt → Except String (Scope × String)
  | [] => .ok (g, out)
  | s :: rest =>
      match execStmt g out s with
      | .ok (g2, out2) => execStmts g2 out2 rest
      | .error e => .error e

/-- `exec(request.code, exec_globals)` with the fresh output buffer:
parse (raising `SyntaxError("invalid syntax")` on unparsable text), then
run the statements. -/
def runCode (g : Scope) : Code → Except String (Scope × String)
  | .unparsable => .error "invalid syntax"
  | .prog stmts => execStmts g "" stmts

/-- `ExecuteRequest` of the RPC surface: `code` and the `context` map
(association list with at most one binding per key in any real message;
when duplicates occur in the embedding, the later entry overwrites, as a
dict build does). -/
structure ExecuteRequest where
  code : Code
  context : List (String × WireValue)

/-- `ExecuteResponse`: an unset `result` oneof-less message field is
`Option.none`; proto3 string and repeated fields default to `""` and `[]`. -/
structure ExecuteResponse where
  success : Bool
  result : Option WireValue
  logs : List String
  error : String

/-- The servicer: its only cross-call state is the registry of host (Go)
callables, `self.go_functions`, populated before serving begins. -/
structure PythonExecutorServicer where
  go_functions : List (String × PyVal)

/-- `register_go_function`: a dict store into the registry. -/
def register_go_function (s : PythonExecutorServicer) (name : String) (func : PyVal) :
    PythonExecutorServicer :=
  { go_functions := (name, func) :: s.go_functions }

/-- The `exec_globals` construction of `Execute`: start from the dict
literal (whose only top-level entry is `__builtins__`, held separately
here as the fixed `lookupBuiltin` table consulted after the globals),
then bind every registered Go function under its name, then bind every
decoded context entry under its key — each a dict overwrite, so a context
key shadows a same-named registry entry, and (through `resolveName`) a
same-named builtin. -/
def buildGlobals (s : PythonExecutorServicer) (ctx : List (String × WireValue)) : Scope :=
  ctx.foldl (fun g kv => Scope.setVar g kv.1 (protobuf_to_python kv.2))
    (s.go_functions.foldl (fun g kv => Scope.setVar g kv.1 kv.2) [])

/-- `PythonExecutorServicer.Execute` from the source: build the fresh
scope and fresh output buffer, run the code, read
`exec_globals.get("__result__", None)`, encode it, and answer
`success=True` with the encoded result and the captured output; any
exception raised inside the `try` block (evaluation or encoding) is
caught and answered as `success=False` with `error=str(e)`.  The servicer
state is returned unchanged: the method never writes `self`. -/
def PythonExecutorServicer.Execute (s : PythonExecutorServicer) (request : ExecuteRequest) :
    ExecuteResponse × PythonExecutorServicer :=
  match runCode (buildGlobals s request.context) request.code with
  | .ok (g, output) =>
      match python_to_protobuf ((Scope.lookup g "__result__").getD PyVal.none) with
      | .ok w => ({ success := true, result := some w, logs := [output], error := "" }, s)
      | .error e => ({ success := false, result := Option.none, logs := [], error := e }, s)
  | .error e => ({ success := false, result := Option.none, logs := [], error := e }, s)

/-! ### Helper lemmas -/

/-- Order-aligned `==` of two dicts: same keys in the same order, values
pairwise Python-equal.  The codec preserves field order, so round-trip
images are order-aligned; `pyEq` then ignores the order again. -/
def pyEqFieldsPointwise : List (PyKey × PyVal) → List (PyKey × PyVal) → Bool
  | [], [] => true
  | (k, v) :: xs, (k2, v2) :: ys =>
      decide (k = k2) && pyEq v v2 && pyEqFieldsPointwise xs ys
  | _, _ => false

theorem pyEqFieldsPointwise_keys :
    ∀ {xs ys : List (PyKey × PyVal)}, pyEqFieldsPointwise xs ys = true →
      xs.map Prod.fst = ys.map Prod.fst := by
  intro xs
  induction xs with
  | nil => intro ys h; cases ys with
    | nil => rfl
    | cons y ys => simp [pyEqFieldsPointwise] at h
  | cons x xs ih =>
    intro ys h
    cases ys with
    | nil => cases x; simp [pyEqFieldsPointwise] at h
    | cons y ys =>
      cases x; cases y
      simp only [pyEqFieldsPointwise, Bool.and_eq_true, decide_eq_true_eq] at h
      simp only [List.map_cons]
      exact congrArg₂ (· :: ·) h.1.1 (ih h.2)

theorem pyEqElems_length :
    ∀ {xs ys : List PyVal}, pyEqElems xs ys = true → xs.length = ys.length := by
  intro xs
  induction xs with
  | nil => intro ys h; cases ys with
    | nil => rfl
    | cons y ys => simp [pyEqElems] at h
  | cons x xs ih =>
    intro ys h
    cases ys with
    | nil => simp [pyEqElems] at h
    | cons y ys =>
      simp only [pyEqElems, Bool.and_eq_true] at h
      simp [ih h.2]

theorem decodeElems_length (ws : List WireValue) :
    (decodeElems ws).length = ws.length := by
  induction ws with
  | nil => rfl
  | cons w ws ih => simp [decodeElems, ih]

theorem decodeFields_keys (fs : List (String × WireValue)) :
    (decodeFields fs).map Prod.fst = fs.map (fun p => PyKey.str p.1) := by
  induction fs with
  | nil => rfl
  | cons f fs ih => cases f; simp [decodeFields, ih]

theorem dictFind_cons_ne {k key : PyKey} (v : PyVal) (ys : List (PyKey × PyVal))
    (h : k ≠ key) : dictFind ((k, v) :: ys) key = dictFind ys key := by
  simp [dictFind, h]

theorem dictFind_isSome_of_mem :
    ∀ {xs : List (PyKey × PyVal)} {key : PyKey}, key ∈ xs.map Prod.fst →
      (dictFind xs key).isSome = true := by
  intro xs
  induction xs with
  | nil => intro key h; simp at h
  | cons x xs ih =>
    intro key h
    cases x with
    | mk k v =>
      by_cases hk : k = key
      · subst hk; simp [dictFind]
      · rw [dictFind_cons_ne v xs hk]
        apply ih
        simp only [List.map_cons, List.mem_cons] at h
        rcases h with h | h
        · exact absurd h.symm hk
        · exact h

theorem dictKeysSubset_of_mem :
    ∀ {ys xs : List (PyKey × PyVal)},
      (∀ key ∈ ys.map Prod.fst, key ∈ xs.map Prod.fst) →
      dictKeysSubset ys xs = true := by
  intro ys
  induction ys with
  | nil => intro xs _; rfl
  | cons y ys ih =>
    intro xs h
    cases y with
    | mk k v =>
      simp only [dictKeysSubset, Bool.and_eq_true]
      constructor
      · exact dictFind_isSome_of_mem (h k (by simp))
      · exact ih (fun key hk => h key (by simp [hk]))

theorem pyEqFieldsSub_cons_skip :
    ∀ {xs : List (PyKey × PyVal)} {k : PyKey} {v : PyVal} {ys : List (PyKey × PyVal)},
      (∀ p ∈ xs, p.1 ≠ k) →
      pyEqFieldsSub xs ((k, v) :: ys) = pyEqFieldsSub xs ys := by
  intro xs
  induction xs with
  | nil => intro k v ys _; rfl
  | cons x xs ih =>
    intro k v ys h
    cases x with
    | mk k1 v1 =>
      have hk1 : k1 ≠ k := h (k1, v1) (by simp)
      have hne : k ≠ k1 := fun hh => hk1 hh.symm
      simp only [pyEqFieldsSub, dictFind_cons_ne v ys hne,
        ih (fun p hp => h p (by simp [hp]))]

theorem pointwise_imp_sub :
    ∀ {xs ys : List (PyKey × PyVal)},
      pyEqFieldsPointwise xs ys = true → (ys.map Prod.fst).Nodup →
      pyEqFieldsSub xs ys = true := by
  intro xs
  induction xs with
  | nil => intro ys _ _; rfl
  | cons x xs ih =>
    intro ys hpw hnd
    cases ys with
    | nil => cases x; simp [pyEqFieldsPointwise] at hpw
    | cons y ys =>
      cases x with
      | mk k1 v1 =>
        cases y with
        | mk k2 v2 =>
          simp only [pyEqFieldsPointwise, Bool.and_eq_true, decide_eq_true_eq] at hpw
          obtain ⟨⟨hkeq, hveq⟩, hrest⟩ := hpw
          subst hkeq
          simp only [List.map_cons, List.nodup_cons] at hnd
          have hkeys : xs.map Prod.fst = ys.map Prod.fst := pyEqFieldsPointwise_keys hrest
          have hskip : ∀ p ∈ xs, p.1 ≠ k1 := by
            intro p hp hpk
            apply hnd.1
            rw [← hpk, ← hkeys]
            exact List.mem_map_of_mem Prod.fst hp
          have hfind : dictFind ((k1, v2) :: ys) k1 = some v2 := by simp [dictFind]
          simp only [pyEqFieldsSub, hfind]
          rw [pyEqFieldsSub_cons_skip hskip]
          simp [hveq, ih hrest hnd.2]

mutual
/-- Round trip on `roundtripSafe` values: encoding succeeds and decoding
the result is Python-`==` to the original. -/
theorem roundtripSafe_sound (v : PyVal) (h : roundtripSafe v = true) :
    ∃ w, python_to_protobuf v = Except.ok w ∧ pyEq (protobuf_to_python w) v = true := by
  match v with
  | PyVal.none => exact ⟨.null, rfl, by simp [protobuf_to_python, pyEq]⟩
  | .str s => exact ⟨.str s, rfl, by simp [protobuf_to_python, pyEq]⟩
  | .int n =>
    refine ⟨.int n, ?_, ?_⟩
    · have hh : int64Min ≤ n ∧ n ≤ int64Max := by simpa [roundtripSafe] using h
      simp [python_to_protobuf, hh]
    · simp [protobuf_to_python, pyEq, numRepr, floatEq]
  | .float f =>
    have hf : f ≠ PyFloat.nan := by simpa [roundtripSafe] using h
    refine ⟨.float f, rfl, ?_⟩
    cases f with
    | finite q => simp [protobuf_to_python, pyEq, numRepr, floatEq]
    | inf => simp [protobuf_to_python, pyEq, numRepr, floatEq]
    | negInf => simp [protobuf_to_python, pyEq, numRepr, floatEq]
    | nan => exact absurd rfl hf
  | .bool b =>
    refine ⟨.int (if b then 1 else 0), rfl, ?_⟩
    cases b <;> simp [protobuf_to_python, pyEq, numRepr, floatEq]
  | .list xs =>
    have hx : xs.isEmpty = false ∧ elemsRoundtripSafe xs = true := by
      simpa [roundtripSafe, Bool.and_eq_true] using h
    obtain ⟨ws, hok, hpw⟩ := elemsRoundtripSafe_sound xs hx.2
    have hlen : ws.length = xs.length := by
      have h1 := pyEqElems_length hpw
      rw [decodeElems_length] at h1
      exact h1
    have hwe : ws.isEmpty = false := by
      cases ws with
      | cons w ws2 => rfl
      | nil =>
        cases xs with
        | nil => exact absurd hx.1 (by simp)
        | cons x xs2 => simp at hlen
    refine ⟨.list ws, ?_, ?_⟩
    · simp [python_to_protobuf, hok, hwe]
    · simp [protobuf_to_python, pyEq, hpw]
  | .dict kvs =>
    have hx : (kvs.isEmpty = false ∧ (kvs.map Prod.fst).Nodup) ∧ fieldsRoundtripSafe kvs = true := by
      simpa [roundtripSafe, Bool.and_eq_true, and_assoc] using h
    obtain ⟨fs, hok, hpw⟩ := fieldsRoundtripSafe_sound kvs hx.2
    have hkeys : fs.map (fun p => PyKey.str p.1) = kvs.map Prod.fst := by
      have h1 := pyEqFieldsPointwise_keys hpw
      rw [decodeFields_keys] at h1
      exact h1
    have hfe : fs.isEmpty = false := by
      cases fs with
      | cons f fs2 => rfl
      | nil =>
        cases kvs with
        | nil => exact absurd hx.1.1 (by simp)
        | cons kv rest => simp at hkeys
    refine ⟨.map fs, ?_, ?_⟩
    · simp [python_to_protobuf, hok, hfe]
    · have hsub : pyEqFieldsSub (decodeFields fs) kvs = true :=
        pointwise_imp_sub hpw hx.1.2
      have hss : dictKeysSubset kvs (decodeFields fs) = true := by
        apply dictKeysSubset_of_mem
        intro key hk
        rw [decodeFields_keys, hkeys]
        exact hk
      simp [protobuf_to_python, pyEq, hsub, hss]
  | .other t => exact absurd h (by simp [roundtripSafe])

/-- Round trip on lists of `roundtripSafe` values. -/
theorem elemsRoundtripSafe_sound (xs : List PyVal) (h : elemsRoundtripSafe xs = true) :
    ∃ ws, encodeElems xs = Except.ok ws ∧ pyEqElems (decodeElems ws) xs = true := by
  match xs with
  | [] => exact ⟨[], rfl, rfl⟩
  | v :: vs =>
    have h1 : roundtripSafe v = true ∧ elemsRoundtripSafe vs = true := by
      simpa [elemsRoundtripSafe, Bool.and_eq_true] using h
    obtain ⟨w, hw, hpe⟩ := roundtripSafe_sound v h1.1
    obtain ⟨ws, hws, hpes⟩ := elemsRoundtripSafe_sound vs h1.2
    refine ⟨w :: ws, ?_, ?_⟩
    · simp [encodeElems, hw, hws]
    · simp [decodeElems, pyEqElems, hpe, hpes]

/-- Round trip on association lists of `roundtripSafe` values. -/
theorem fieldsRoundtripSafe_sound (kvs : List (PyKey × PyVal))
    (h : fieldsRoundtripSafe kvs = true) :
    ∃ fs, encodeFields kvs = Except.ok fs ∧
      pyEqFieldsPointwise (decodeFields fs) kvs = true := by
  match kvs with
  | [] => exact ⟨[], rfl, rfl⟩
  | (k, v) :: rest =>
    have h1 : (PyKey.isStr k = true ∧ roundtripSafe v = true) ∧
        fieldsRoundtripSafe rest = true := by
      simpa [fieldsRoundtripSafe, Bool.and_eq_true] using h
    cases k with
    | str ks =>
      obtain ⟨w, hw, hpe⟩ := roundtripSafe_sound v h1.1.2
      obtain ⟨fs, hfs, hpes⟩ := fieldsRoundtripSafe_sound rest h1.2
      refine ⟨(ks, w) :: fs, ?_, ?_⟩
      · simp [encodeFields, hw, hfs]
      · simp [decodeFields, pyEqFieldsPointwise, hpe, hpes]
    | int n => exact absurd h1.1.1 (by simp [PyKey.isStr])
    | other t => exact absurd h1.1.1 (by simp [PyKey.isStr])
end

mutual
/-- Encoding succeeds on every value whose integers fit the wire range
and whose dict keys are all strings. -/
theorem wireSafe_encode_total (v : PyVal) (h : wireSafe v = true) :
    ∃ w, python_to_protobuf v = Except.ok w := by
  match v with
  | PyVal.none => exact ⟨.null, rfl⟩
  | .str s => exact ⟨.str s, rfl⟩
  | .int n =>
    have hh : int64Min ≤ n ∧ n ≤ int64Max := by simpa [wireSafe] using h
    exact ⟨.int n, by simp [python_to_protobuf, hh]⟩
  | .float f => exact ⟨.float f, rfl⟩
  | .bool b => exact ⟨.int (if b then 1 else 0), rfl⟩
  | .list xs =>
    have hx : elemsWireSafe xs = true := by simpa [wireSafe] using h
    obtain ⟨ws, hok⟩ := elemsWireSafe_encode_total xs hx
    exact ⟨if ws.isEmpty then .unset else .list ws, by simp [python_to_protobuf, hok]⟩
  | .dict kvs =>
    have hx : fieldsWireSafe kvs = true := by simpa [wireSafe] using h
    obtain ⟨fs, hok⟩ := fieldsWireSafe_encode_total kvs hx
    exact ⟨if fs.isEmpty then .unset else .map fs, by simp [python_to_protobuf, hok]⟩
  | .other t => exact ⟨.str t, rfl⟩

/-- Elementwise version of `wireSafe_encode_total`. -/
theorem elemsWireSafe_encode_total (xs : List PyVal) (h : elemsWireSafe xs = true) :
    ∃ ws, encodeElems xs = Except.ok ws := by
  match xs with
  | [] => exact ⟨[], rfl⟩
  | v :: vs =>
    have h1 : wireSafe v = true ∧ elemsWireSafe vs = true := by
      simpa [elemsWireSafe, Bool.and_eq_true] using h
    obtain ⟨w, hw⟩ := wireSafe_encode_total v h1.1
    obtain ⟨ws, hws⟩ := elemsWireSafe_encode_total vs h1.2
    exact ⟨w :: ws, by simp [encodeElems, hw, hws]⟩

/-- Fieldwise version of `wireSafe_encode_total`. -/
theorem fieldsWireSafe_encode_total (kvs : List (PyKey × PyVal))
    (h : fieldsWireSafe kvs = true) :
    ∃ fs, encodeFields kvs = Except.ok fs := by
  match kvs with
  | [] => exact ⟨[], rfl⟩
  | (k, v) :: rest =>
    have h1 : (PyKey.isStr k = true ∧ wireSafe v = true) ∧
        fieldsWireSafe rest = true := by
      simpa [fieldsWireSafe, Bool.and_eq_true] using h
    cases k with
    | str ks =>
      obtain ⟨w, hw⟩ := wireSafe_encode_total v h1.1.2
      obtain ⟨fs, hfs⟩ := fieldsWireSafe_encode_total rest h1.2
      exact ⟨(ks, w) :: fs, by simp [encodeFields, hw, hfs]⟩
    | int n => exact absurd h1.1.1 (by simp [PyKey.isStr])
    | other t => exact absurd h1.1.1 (by simp [PyKey.isStr])
end

theorem Scope.lookup_setVar_self (g : Scope) (k : String) (v : PyVal) :
    Scope.lookup (Scope.setVar g k v) k = some v := by
  simp [Scope.lookup, Scope.setVar, List.find?]

theorem Scope.lookup_setVar_ne (g : Scope) (k1 k : String) (v : PyVal) (h : k1 ≠ k) :
    Scope.lookup (Scope.setVar g k1 v) k = Scope.lookup g k := by
  have hb : (k1 == k) = false := beq_eq_false_iff_ne.mpr h
  simp [Scope.lookup, Scope.setVar, List.find?, hb]

theorem Scope.lookup_foldl_skip {α : Type} (key : α → String) (val : α → PyVal) :
    ∀ (l : List α) (g : Scope) (k : String), (∀ a ∈ l, key a ≠ k) →
      Scope.lookup (l.foldl (fun g2 a => Scope.setVar g2 (key a) (val a)) g) k =
        Scope.lookup g k := by
  intro l
  induction l with
  | nil => intro g k _; rfl
  | cons a rest ih =>
    intro g k h
    simp only [List.foldl_cons]
    rw [ih (Scope.setVar g (key a) (val a)) k (fun x hx => h x (by simp [hx]))]
    exact Scope.lookup_setVar_ne g (key a) k (val a) (h a (by simp))

theorem buildGlobals_context_binding (s : PythonExecutorServicer)
    (ctx1 ctx2 : List (String × WireValue)) (k : String) (v : WireValue)
    (h : ∀ p ∈ ctx2, p.1 ≠ k) :
    Scope.lookup (buildGlobals s (ctx1 ++ (k, v) :: ctx2)) k =
      some (protobuf_to_python v) := by
  unfold buildGlobals
  rw [List.foldl_append]
  simp only [List.foldl_cons]
  rw [Scope.lookup_foldl_skip (fun kv => kv.1) (fun kv => protobuf_to_python kv.2) ctx2 _ k h]
  exact Scope.lookup_setVar_self _ k _

theorem Execute_snd (s : PythonExecutorServicer) (req : ExecuteRequest) :
    (PythonExecutorServicer.Execute s req).2 = s := by
  unfold PythonExecutorServicer.Execute
  split
  · split
    · rfl
    · rfl
  · rfl

theorem Execute_run_error (s : PythonExecutorServicer) (req : ExecuteRequest) (e : String)
    (h : runCode (buildGlobals s req.context) req.code = Except.error e) :
    (PythonExecutorServicer.Execute s req).1 =
      { success := false, result := Option.none, logs := [], error := e } := by
  unfold PythonExecutorServicer.Execute
  rw [h]

theorem Execute_run_ok (s : PythonExecutorServicer) (req : ExecuteRequest)
    (g : Scope) (out : String) (w : WireValue)
    (hrun : runCode (buildGlobals s req.context) req.code = Except.ok (g, out))
    (henc : python_to_protobuf ((Scope.lookup g "__result__").getD PyVal.none) =
      Except.ok w) :
    (PythonExecutorServicer.Execute s req).1 =
      { success := true, result := some w, logs := [out], error := "" } := by
  unfold PythonExecutorServicer.Execute
  rw [hrun]
  simp only [henc]

theorem Execute_run_ok_encode_error (s : PythonExecutorServicer) (req : ExecuteRequest)
    (g : Scope) (out : String) (e : String)
    (hrun : runCode (buildGlobals s req.context) req.code = Except.ok (g, out))
    (henc : python_to_protobuf ((Scope.lookup g "__result__").getD PyVal.none) =
      Except.error e) :
    (PythonExecutorServicer.Execute s req).1 =
      { success := false, result := Option.none, logs := [], error := e } := by
  unfold PythonExecutorServicer.Execute
  rw [hrun]
  simp only [henc]

/-! ### Claims -/

/-- The request of the specification example scenario: code
`result = x + 1` with context `x = integer(41)`. -/
def specExampleRequest : ExecuteRequest :=
  { code := .prog [.assign "result" (.add (.var "x") (.lit (.int 1)))]
    context := [("x", WireValue.int 41)] }

/-- The same request with the binding name the source actually reads,
`__result__`. -/
def amendedExampleRequest : ExecuteRequest :=
  { code := .prog [.assign "__result__" (.add (.var "x") (.lit (.int 1)))]
    context := [("x", WireValue.int 41)] }

/-- C1, counterexample: on the request of the spec example (code
`result = x + 1`, context `x = 41`) the servicer answers success with the
null variant, not `integer(42)` — the designated result binding the source
reads is `__result__`, which this code never assigns. -/
theorem c1_spec_example_counterexample :
    (PythonExecutorServicer.Execute { go_functions := [] } specExampleRequest).1.success
      = true ∧
    (PythonExecutorServicer.Execute { go_functions := [] } specExampleRequest).1.result
      = some WireValue.null ∧
    some WireValue.null ≠ some (WireValue.int 42) := by
  refine ⟨rfl, rfl, by simp⟩

/-- C1, amended: when the submitted code assigns the designated binding
`__result__` (code `__result__ = x + 1`, context `x = integer(41)`),
Execute answers `success=true` with result `integer(42)` (and one log
entry holding the empty captured output). -/
theorem c1_result_slot_amended :
    (PythonExecutorServicer.Execute { go_functions := [] } amendedExampleRequest).1 =
      { success := true, result := some (WireValue.int 42), logs := [""], error := "" } :=
  rfl

/-- C2: encoding a boolean yields the integer variant (1 or 0), never the
boolean variant — `isinstance(value, int)` matches booleans first and the
source's boolean branch is dead code.  This evaluates the code at the
claim's failing inputs. -/
theorem c2_bool_encoded_as_integer :
    python_to_protobuf (PyVal.bool true) = Except.ok (WireValue.int 1) ∧
    python_to_protobuf (PyVal.bool false) = Except.ok (WireValue.int 0) ∧
    ∀ b : Bool, python_to_protobuf (PyVal.bool b) ≠ Except.ok (WireValue.bool b) := by
  refine ⟨rfl, rfl, ?_⟩
  intro b
  cases b <;> simp [python_to_protobuf]

/-- C5: a wire value with no recognised variant tag set decodes to the
absence-of-value (`None`) rather than failing; the decoder is a total
function of the wire value. -/
theorem c5_decode_unset_is_null :
    protobuf_to_python WireValue.unset = PyVal.none := rfl

/-- C6: whenever evaluation succeeds and the final scope holds no
`__result__` binding, Execute answers `success=true` with the null
variant as result. -/
theorem c6_missing_result_is_null (s : PythonExecutorServicer) (req : ExecuteRequest)
    (g : Scope) (out : String)
    (hrun : runCode (buildGlobals s req.context) req.code = Except.ok (g, out))
    (habs : Scope.lookup g "__result__" = Option.none) :
    (PythonExecutorServicer.Execute s req).1 =
      { success := true, result := some WireValue.null, logs := [out], error := "" } := by
  have henc : python_to_protobuf ((Scope.lookup g "__result__").getD PyVal.none) =
      Except.ok WireValue.null := by
    rw [habs]
    rfl
  exact Execute_run_ok s req g out WireValue.null hrun henc

/-- The request `y = 1` that never assigns the result slot. -/
def noResultRequest : ExecuteRequest :=
  { code := .prog [.assign "y" (.lit (.int 1))], context := [] }

/-- C6, witness: the concrete request `y = 1` yields success with the
null variant. -/
theorem c6_missing_result_witness :
    (PythonExecutorServicer.Execute { go_functions := [] } noResultRequest).1 =
      { success := true, result := some WireValue.null, logs := [""], error := "" } :=
  c6_missing_result_is_null { go_functions := [] } noResultRequest
    [("y", PyVal.int 1)] "" rfl rfl

/-- The request `assert False`: the raised `AssertionError()` carries no
message, so `str(e)` is the empty string. -/
def assertFalseRequest : ExecuteRequest :=
  { code := .prog [.assertStmt (.lit (.bool false))], context := [] }

/-- C7, counterexample: evaluation failures whose exception carries no
message refute the non-empty-error part of the claim — on `assert False`
(likewise `(x for x in []).__next__()`, whose `StopIteration` message is
empty) Execute answers `success=false` with an empty `error`. -/
theorem c7_empty_error_counterexample :
    (PythonExecutorServicer.Execute { go_functions := [] } assertFalseRequest).1.success
      = false ∧
    (PythonExecutorServicer.Execute { go_functions := [] } assertFalseRequest).1.error
      = "" := ⟨rfl, rfl⟩

/-- C7, amended: every evaluation failure is caught and answered as
`success=false`, carrying exactly `str` of the raised exception — which
is empty for message-less exceptions such as `AssertionError()` or
`StopIteration()` — and no result; the failure never propagates (Execute
is a total function); and on every request a failed response carries no
result while a successful response carries a result and an empty error,
so success-with-result and failure-with-error remain mutually exclusive
outcomes. -/
theorem c7_failure_outcome (s : PythonExecutorServicer) (req : ExecuteRequest) :
    (∀ e, runCode (buildGlobals s req.context) req.code = Except.error e →
      (PythonExecutorServicer.Execute s req).1.success = false ∧
      (PythonExecutorServicer.Execute s req).1.error = e ∧
      (PythonExecutorServicer.Execute s req).1.result = Option.none) ∧
    ((PythonExecutorServicer.Execute s req).1.success = false →
      (PythonExecutorServicer.Execute s req).1.result = Option.none) ∧
    ((PythonExecutorServicer.Execute s req).1.success = true →
      (PythonExecutorServicer.Execute s req).1.error = "" ∧
      (PythonExecutorServicer.Execute s req).1.result ≠ Option.none) := by
  cases hr : runCode (buildGlobals s req.context) req.code with
  | error e0 =>
    have hresp := Execute_run_error s req e0 hr
    refine ⟨?_, ?_, ?_⟩
    · intro e he
      have heq : e0 = e := by injection he
      subst heq
      rw [hresp]
      exact ⟨rfl, rfl, rfl⟩
    · intro _
      rw [hresp]
    · intro hs
      rw [hresp] at hs
      simp at hs
  | ok p =>
    obtain ⟨g, out⟩ := p
    cases henc : python_to_protobuf ((Scope.lookup g "__result__").getD PyVal.none) with
    | ok w =>
      have hresp := Execute_run_ok s req g out w hr henc
      refine ⟨?_, ?_, ?_⟩
      · intro e he
        injection he
      · intro hs
        rw [hresp] at hs
        simp at hs
      · intro _
        rw [hresp]
        exact ⟨rfl, by simp⟩
    | error e1 =>
      have hresp := Execute_run_ok_encode_error s req g out e1 hr henc
      refine ⟨?_, ?_, ?_⟩
      · intro e he
        injection he
      · intro _
        rw [hresp]
      · intro hs
        rw [hresp] at hs
        simp at hs

/-- The spec's failing scenario `__result__ = 1/0`. -/
def divZeroRequest : ExecuteRequest :=
  { code := .prog [.assign "__result__" (.div (.lit (.int 1)) (.lit (.int 0)))]
    context := [] }

/-- C7, witness: the division-by-zero request is answered as
`success=false` with the `ZeroDivisionError` description and no result. -/
theorem c7_failure_outcome_witness :
    (PythonExecutorServicer.Execute { go_functions := [] } divZeroRequest).1.success
      = false ∧
    (PythonExecutorServicer.Execute { go_functions := [] } divZeroRequest).1.error
      = "division by zero" ∧
    (PythonExecutorServicer.Execute { go_functions := [] } divZeroRequest).1.result
      = Option.none :=
  (c7_failure_outcome { go_functions := [] } divZeroRequest).1 "division by zero" rfl

/-- C8: a context entry whose key collides with anything bound earlier
(registry entry, or — through `resolveName` — an allow-listed builtin)
shadows that binding in the scope of this call: name resolution and
variable evaluation deliver the decoded context value; and the call
leaves the servicer (the registry, the only cross-call state) untouched,
so the shadowing has no effect beyond the call. -/
theorem c8_context_shadowing (s : PythonExecutorServicer)
    (ctx1 ctx2 : List (String × WireValue)) (k : String) (v : WireValue)
    (h : ∀ p ∈ ctx2, p.1 ≠ k) :
    resolveName (buildGlobals s (ctx1 ++ (k, v) :: ctx2)) k =
      some (protobuf_to_python v) ∧
    evalExpr (buildGlobals s (ctx1 ++ (k, v) :: ctx2)) (.var k) =
      Except.ok (protobuf_to_python v) ∧
    ∀ req : ExecuteRequest, (PythonExecutorServicer.Execute s req).2 = s := by
  have hres : resolveName (buildGlobals s (ctx1 ++ (k, v) :: ctx2)) k =
      some (protobuf_to_python v) := by
    unfold resolveName
    rw [buildGlobals_context_binding s ctx1 ctx2 k v h]
  refine ⟨hres, ?_, fun req => Execute_snd s req⟩
  simp only [evalExpr, hres]

/-- C8, witness: a context entry `len = 5` shadows both the registered
callable `len` and the allow-listed builtin `len` for the call. -/
theorem c8_context_shadowing_witness :
    resolveName
      (buildGlobals { go_functions := [("len", PyVal.other "<go function len>")] }
        ([] ++ ("len", WireValue.int 5) :: [])) "len" =
      some (protobuf_to_python (WireValue.int 5)) :=
  (c8_context_shadowing { go_functions := [("len", PyVal.other "<go function len>")] }
    [] [] "len" (WireValue.int 5) (by simp)).1

/-- C9: each call's response is a function of its own request and the
registry alone — a call leaves the servicer state unchanged, and running
any first call does not alter what any second call answers (scope and
output buffer are rebuilt fresh inside `Execute` from the request and the
registry). -/
theorem c9_call_independence (s : PythonExecutorServicer) (r1 r2 : ExecuteRequest) :
    (PythonExecutorServicer.Execute s r1).2 = s ∧
    (PythonExecutorServicer.Execute
        (PythonExecutorServicer.Execute s r1).2 r2).1 =
      (PythonExecutorServicer.Execute s r2).1 := by
  refine ⟨Execute_snd s r1, ?_⟩
  rw [Execute_snd s r1]

/-- C10: the empty list and the empty dict encode to the wire value with
no variant tag set, and decoding that encoding yields `None`, not the
empty container. -/
theorem c10_empty_containers_encode_unset :
    python_to_protobuf (PyVal.list []) = Except.ok WireValue.unset ∧
    python_to_protobuf (PyVal.dict []) = Except.ok WireValue.unset ∧
    Except.map protobuf_to_python (python_to_protobuf (PyVal.list [])) =
      Except.ok PyVal.none ∧
    Except.map protobuf_to_python (python_to_protobuf (PyVal.dict [])) =
      Except.ok PyVal.none :=
  ⟨rfl, rfl, rfl, rfl⟩
